import Mathlib

/-!
Verification of the portafilter declarative validation engine
(`portafilter/rules.py`, `portafilter/validator.py`) against its
natural-language specification.

The JSON-like input data, the rule predicates, the `Ruleset` evaluation
loop and the `Validator` orchestration are translated directly from the
Python source.  Collaborator modules that are not part of the validated
sources (the dotted/wildcard path resolver `json_schema.py`, the date
service `sandglass.py`, the message-translation helper `utils.py` and the
`ValueType` enumeration `enums.py`) are modelled from the specification;
each such definition carries a doc comment starting with
"Modelled from the spec:".
-/

set_option maxRecDepth 4000

/-- A JSON-like runtime value, the shape of the data validated by the
engine: Python `None`, `bool`, `int`, `float` (as rationals), `str`,
`list` and `dict` (association list in insertion order). -/
inductive JValue where
  | null
  | bool (b : Bool)
  | int (n : Int)
  | float (q : Rat)
  | str (s : String)
  | list (xs : List JValue)
  | dict (kvs : List (String × JValue))

/-- Modelled from the spec: the closed `ValueType` enumeration
{string, integer, numeric, list, dict} from the missing `enums.py`. -/
inductive ValueType where
  | string
  | integer
  | numeric
  | list
  | dict
deriving DecidableEq

/-- Modelled from the spec: `ValueType(name)` enumeration lookup — the
textual names of the closed enumeration. -/
def valueTypeOfName (name : String) : Option ValueType :=
  if name = "string" then some .string
  else if name = "integer" then some .integer
  else if name = "numeric" then some .numeric
  else if name = "list" then some .list
  else if name = "dict" then some .dict
  else none

/-- Python exceptions that abort a validation call (configuration
errors, in the spec's taxonomy), from the missing `exceptions.py` plus
the builtin exceptions the source can raise uncaught. -/
inductive Cfg where
  | invalidRule (name : String)
  | notimpl
  | valueError
  | typeError
  | indexError
  | unpackError
deriving DecidableEq

/-- A rule parameter: the unparsed strings from the rule expression, or
the `(value, value_exists)` tuple appended by
`Validator._modify_dependent_rules` (represented as the resolver result
it came from). -/
inductive Resolved where
  | pair (v : JValue) (ex : Bool)
  | items (xs : List (Nat × Resolved))

inductive Param where
  | s (value : String)
  | resolved (details : Resolved)

/-- Python `isinstance(value, bool)`. -/
def isBoolB : JValue → Bool
  | .bool _ => true
  | _ => false

/-- Python `isinstance(value, int)`: `bool` is a subclass of `int`. -/
def isInstInt : JValue → Bool
  | .int _ => true
  | .bool _ => true
  | _ => false

/-- Python `isinstance(value, numbers.Number)`: ints, floats and bools. -/
def isInstNumber : JValue → Bool
  | .int _ => true
  | .bool _ => true
  | .float _ => true
  | _ => false

def isStrB : JValue → Bool
  | .str _ => true
  | _ => false

def isListB : JValue → Bool
  | .list _ => true
  | _ => false

def isDictB : JValue → Bool
  | .dict _ => true
  | _ => false

def isNullB : JValue → Bool
  | .null => true
  | _ => false

/-- Python truthiness (`True if value else False`). -/
def pyTruthy : JValue → Bool
  | .null => false
  | .bool b => b
  | .int n => n != 0
  | .float q => q != 0
  | .str s => s != ""
  | .list xs => !xs.isEmpty
  | .dict kvs => !kvs.isEmpty

/-- The numeric value of a Python `int` (including `bool`, where
`True == 1` and `False == 0`); `0` elsewhere (callers guard with
`isInstInt`). -/
def valueAsRat : JValue → Rat
  | .int n => n
  | .bool b => if b then 1 else 0
  | _ => 0

mutual
/-- Python `==` between runtime values: numeric kinds compare by value
(`True == 1`), containers compare pairwise, different non-numeric kinds
are unequal.  (Python dict equality is order-insensitive; data dicts in
this engine have unique keys and the claims only compare scalars, so the
pairwise form is used.) -/
def pyEq : JValue → JValue → Bool
  | .null, .null => true
  | .bool a, .bool b => a == b
  | .bool a, .int n => n == (if a then 1 else 0)
  | .bool a, .float q => q == (if a then 1 else 0)
  | .int n, .bool b => n == (if b then 1 else 0)
  | .float q, .bool b => q == (if b then 1 else 0)
  | .int a, .int b => a == b
  | .int a, .float q => q == (a : Rat)
  | .float q, .int a => q == (a : Rat)
  | .float a, .float b => a == b
  | .str a, .str b => a == b
  | .list xs, .list ys => pyEqList xs ys
  | .dict xs, .dict ys => pyEqFields xs ys
  | _, _ => false

def pyEqList : List JValue → List JValue → Bool
  | [], [] => true
  | x :: xs, y :: ys => pyEq x y && pyEqList xs ys
  | _, _ => false

def pyEqFields : List (String × JValue) → List (String × JValue) → Bool
  | [], [] => true
  | (k, v) :: xs, (k2, v2) :: ys => k == k2 && pyEq v v2 && pyEqFields xs ys
  | _, _ => false
end

/-- Split a list of characters at every occurrence of `c`
(Python `str.split(c)`; the empty string yields `[""]`). -/
def splitCharsOn (c : Char) : List Char → List (List Char)
  | [] => [[]]
  | x :: xs =>
    match splitCharsOn c xs with
    | [] => [[]]
    | seg :: rest => if x = c then [] :: seg :: rest else (x :: seg) :: rest

/-- Python `s.split(c)` producing strings. -/
def splitOnCh (c : Char) (s : String) : List String :=
  (splitCharsOn c s.data).map String.mk

/-- Does `pat` occur at the head of `l`? -/
def leadsWith : List Char → List Char → Bool
  | [], _ => true
  | _ :: _, [] => false
  | p :: ps, c :: cs => p == c && leadsWith ps cs

/-- Replace the first occurrence of `pat` (non-empty) by `rep`
(Python `s.replace(pat, rep, 1)`). -/
def replaceFirstChars (pat rep : List Char) : List Char → List Char
  | [] => []
  | c :: cs =>
    if leadsWith pat (c :: cs) then rep ++ (c :: cs).drop pat.length
    else c :: replaceFirstChars pat rep cs

def replaceFirst (s pat rep : String) : String :=
  String.mk (replaceFirstChars pat.data rep.data s.data)

/-- All-digits check for numeric path segments and for `float` parsing. -/
def allDigits (cs : List Char) : Bool := cs.all (fun c => c.isDigit)

def digitsToNat (cs : List Char) : Nat :=
  cs.foldl (fun acc c => acc * 10 + (c.toNat - 48)) 0

/-- Parse a decimal segment such as a list index. -/
def parseNatSeg (s : String) : Option Nat :=
  if s.data ≠ [] ∧ allDigits s.data then some (digitsToNat s.data) else none

/-- Python `float(s)` restricted to the plain decimal forms
`[+-]digits[.digits]` that the rule expressions use (exponents and the
special words accepted by the builtin are not modelled); `none` models
the `ValueError` the builtin raises. -/
def parsePyFloat (s : String) : Option Rat :=
  let core : List Char → Option Rat := fun cs =>
    match splitCharsOn '.' cs with
    | [intPart] =>
      if intPart ≠ [] ∧ allDigits intPart then some (digitsToNat intPart) else none
    | [intPart, fracPart] =>
      if allDigits intPart ∧ allDigits fracPart ∧ (intPart ≠ [] ∨ fracPart ≠ []) then
        some ((digitsToNat intPart : Rat) +
          (digitsToNat fracPart : Rat) / ((10 : Rat) ^ fracPart.length))
      else none
    | _ => none
  match s.data with
  | '+' :: rest => core rest
  | '-' :: rest => (core rest).map (fun q => -q)
  | cs => core cs

def lookupField (kvs : List (String × JValue)) (k : String) : Option JValue :=
  match kvs with
  | [] => none
  | (k2, v) :: rest => if k2 = k then some v else lookupField rest k

/-- Modelled from the spec: the dotted/wildcard path resolver
(`JsonSchema.get_value_details` of the missing `json_schema.py`,
spec section 4.1).  Without a `*` the segments are walked — a map lookup
that misses, or indexing into a non-map/non-sequence, yields
`(None, existed=false)`, a present key yields `(value, existed=true)`;
at a `*` segment a sequence yields the list of `(index, sub-result)`
pairs with the rest of the path resolved per element, and a non-sequence
resolves to an empty result set. -/
def resolvePath : List String → JValue → Resolved
  | [], v => .pair v true
  | "*" :: rest, v =>
    match v with
    | .list xs => .items (xs.enum.map (fun p => (p.1, resolvePath rest p.2)))
    | _ => .items []
  | seg :: rest, v =>
    match v with
    | .dict kvs =>
      match lookupField kvs seg with
      | some v2 => resolvePath rest v2
      | none => .pair .null false
    | .list xs =>
      match parseNatSeg seg with
      | some i =>
        match xs.get? i with
        | some v2 => resolvePath rest v2
        | none => .pair .null false
      | none => .pair .null false
    | _ => .pair .null false

def splitDots (attr : String) : List String := splitOnCh '.' attr

/-- `Validator._extract_list_details`: substitute the next `*` of the
attribute with the element index and unwrap nested single lists of
tuples by their first element, recursively, until a terminal value. -/
def extractGo (attr : String) (i : Nat) (v : Resolved) : String × Resolved :=
  let attr2 := replaceFirst attr ".*" ("." ++ toString i)
  match v with
  | .items ((j, w) :: _) => extractGo attr2 j w
  | _ => (attr2, v)

def extractListDetails (attr : String) (item : Nat × Resolved) : String × Resolved :=
  extractGo attr item.1 item.2

/-- Modelled from the spec: the reserved relative keywords of the date
service (`sandglass.py` is not under `src/`). -/
def sandglassSpecialKeys : List String := ["today", "tomorrow", "yesterday"]

/-- Modelled from the spec: `Sandglass.is_parse_special_key` — true
exactly on the reserved relative keywords. -/
def isParseSpecialKeyStr (s : String) : Bool := sandglassSpecialKeys.contains s

/-- Modelled from the spec: the special-key test applied to a runtime
value; non-strings are never reserved keywords. -/
def isParseSpecialKey (v : JValue) : Bool :=
  match v with
  | .str s => isParseSpecialKeyStr s
  | _ => false

/-- Modelled from the spec: parsing of a literal `YYYY-MM-DD` date into
a comparable calendar value at day granularity.  The encoding
`y * 372 + (m - 1) * 31 + (d - 1)` is strictly monotone over valid
dates, which is all the day-granularity comparisons of the date-family
rules observe. -/
def parseISODate (s : String) : Option Int :=
  match splitOnCh '-' s with
  | [y, m, d] =>
    match parseNatSeg y, parseNatSeg m, parseNatSeg d with
    | some yn, some mn, some dn =>
      if 1 ≤ mn ∧ mn ≤ 12 ∧ 1 ≤ dn ∧ dn ≤ 31 then
        some ((yn : Int) * 372 + ((mn : Int) - 1) * 31 + ((dn : Int) - 1))
      else none
    | _, _, _ => none
  | _ => none

/-- Modelled from the spec: `Sandglass(text)` followed by
`start_of_day()` — a reserved keyword resolves relative to the injected
current day `now`, and any other string parses as a literal date;
`none` models a parse failure.  Format hints are not modelled: the
claims settled here are independent of them. -/
def sandglassParse (now : Int) (s : String) : Option Int :=
  if s = "today" then some now
  else if s = "tomorrow" then some (now + 1)
  else if s = "yesterday" then some (now - 1)
  else parseISODate s

/-- Modelled from the spec: `Sandglass(value)` on a runtime value;
constructing from a non-string raises, which the date-family rules
catch and turn into a failed comparison. -/
def sandglassParseValue (now : Int) (v : JValue) : Option Int :=
  match v with
  | .str s => sandglassParse now s
  | _ => none

/-- Modelled from the spec: the message-translation service
(`trans` of the missing `utils.py`; the root name `trans` is taken in
Lean): renders the message key followed by the named placeholders. -/
def transMsg (key : String) (attributes : List (String × String)) : String :=
  attributes.foldl (fun acc kv => acc ++ " " ++ kv.1 ++ "=" ++ kv.2) key

/-- A parsed rule invocation: its registry name and its ordered
parameter list (`Rule._params`).  The shared metadata
(`value_type`/`required`/`nullable`) is derived from the owning
`Ruleset`, exactly as `Ruleset._set_rules_metadata` distributes it. -/
structure RuleData where
  name : String
  params : List Param

/-- An ordered rule-name → rule mapping plus the error accumulator
(`Ruleset._rules`, `Ruleset._errors`).  The accumulator is appended to
and never reset, as in the source. -/
structure Ruleset where
  rules : List RuleData
  errors : List String

/-- `Ruleset.get_value_type`: the first rule name that is a `ValueType`
value wins; default `string`. -/
def firstValueType : List RuleData → ValueType
  | [] => .string
  | rd :: rest =>
    match valueTypeOfName rd.name with
    | some vt => vt
    | none => firstValueType rest

def rsValueType (rs : Ruleset) : ValueType := firstValueType rs.rules

/-- `'required' in self._rules`. -/
def rsRequired (rs : Ruleset) : Bool := rs.rules.any (fun rd => rd.name = "required")

/-- `'nullable' in self._rules`. -/
def rsNullable (rs : Ruleset) : Bool := rs.rules.any (fun rd => rd.name = "nullable")

/-- `Rule.is_skippable`: the transient value is `None` and the field is
nullable or not required. -/
def isSkippableB (required nullable : Bool) (value : JValue) : Bool :=
  isNullB value && (nullable || !required)

/-- The textual form of a parameter, as the source interpolates it into
attribute paths and messages (std string parameters in every reachable
case). -/
def paramText : Param → String
  | .s v => v
  | .resolved _ => "(value, value_exists)"

/-- `RequiredRule.passes`. -/
def requiredPasses (nullable : Bool) (value : JValue) : Bool :=
  if isInstNumber value || isBoolB value then true
  else (nullable && isNullB value) || pyTruthy value

/-- `MinRule.passes`: `float(params[0])` then a comparison dispatched on
the declared value type; a `dict` value type raises
`NotImplementedError` and a malformed parameter raises `ValueError`
(neither is caught by the engine). -/
def minPasses (vt : ValueType) (params : List Param) (value : JValue) : Except Cfg Bool :=
  match params.head? with
  | none => .error .indexError
  | some (.resolved _) => .error .typeError
  | some (.s p) =>
    match parsePyFloat p with
    | none => .error .valueError
    | some m =>
      match vt with
      | .string =>
        .ok (match value with
             | .str s => decide ((s.length : Rat) ≥ m)
             | _ => false)
      | .list =>
        .ok (match value with
             | .list xs => decide ((xs.length : Rat) ≥ m)
             | _ => false)
      | .numeric => .ok (isInstInt value && decide (valueAsRat value ≥ m))
      | .integer => .ok (isInstInt value && decide (valueAsRat value ≥ m))
      | .dict => .error .notimpl

/-- `MaxRule.passes`, the mirror image of `MinRule.passes`. -/
def maxPasses (vt : ValueType) (params : List Param) (value : JValue) : Except Cfg Bool :=
  match params.head? with
  | none => .error .indexError
  | some (.resolved _) => .error .typeError
  | some (.s p) =>
    match parsePyFloat p with
    | none => .error .valueError
    | some m =>
      match vt with
      | .string =>
        .ok (match value with
             | .str s => decide ((s.length : Rat) ≤ m)
             | _ => false)
      | .list =>
        .ok (match value with
             | .list xs => decide ((xs.length : Rat) ≤ m)
             | _ => false)
      | .numeric => .ok (isInstInt value && decide (valueAsRat value ≤ m))
      | .integer => .ok (isInstInt value && decide (valueAsRat value ≤ m))
      | .dict => .error .notimpl

/-- Python `value == param` for `value in params` membership tests: the
parameters are the unparsed strings of the rule expression, and a
runtime value equals one only when it is that very string (the
dependent-rule tuple parameter never equals a data value). -/
def paramEqValue (value : JValue) (p : Param) : Bool :=
  match p with
  | .s s => pyEq value (.str s)
  | .resolved _ => false

/-- `InRule.passes`: `value in params`. -/
def inPasses (value : JValue) (params : List Param) : Bool :=
  params.any (paramEqValue value)

/-- `NotInRule.passes`: `value not in params`. -/
def notInPasses (value : JValue) (params : List Param) : Bool :=
  !(params.any (paramEqValue value))

/-- `SameRule.passes`: unpack `params[1]` as the `(other_value,
other_value_exists)` tuple injected by the orchestrator and compare.
A missing or non-pair second parameter raises the corresponding Python
unpacking error (a two-element sequence unpacks but never equals a
scalar value; a two-character string unpacks to its first character). -/
def samePasses (value : JValue) (params : List Param) : Except Cfg Bool :=
  match params.get? 1 with
  | some (.resolved (.pair other _)) => .ok (pyEq value other)
  | some (.resolved (.items xs)) =>
    if xs.length = 2 then .ok false else .error .valueError
  | some (.s t) =>
    match t.data with
    | [c1, _] => .ok (pyEq value (.str (String.mk [c1])))
    | _ => .error .valueError
  | none => .error .indexError

/-- The character class of the local part of the source's email regular
expression, `[A-Za-z0-9._%+-]`. -/
def isLocalChar (c : Char) : Bool :=
  c.isAlpha || c.isDigit || c = '.' || c = '_' || c = '%' || c = '+' || c = '-'

/-- The character class of the domain part, `[A-Za-z0-9.-]`. -/
def isDomainChar (c : Char) : Bool :=
  c.isAlpha || c.isDigit || c = '.' || c = '-'

/-- The source's email pattern
`\b[A-Za-z0-9._%+-]+@[A-Za-z0-9.-]+\.[A-Z|a-z]{2,}\b` checked from the
start of the string (`re.match`): a non-empty local part, `@`, a domain
whose final dot-separated label is at least two letters.  (No claim
exercises this predicate.) -/
def emailMatch (s : String) : Bool :=
  match s.data.span isLocalChar with
  | (localPart, '@' :: rest) =>
    let domain := rest.takeWhile isDomainChar
    let tailLabel := (domain.reverse.takeWhile (fun c => c ≠ '.')).reverse
    localPart ≠ [] && domain.any (fun c => c = '.') &&
      tailLabel.length ≥ 2 && tailLabel.all (fun c => c.isAlpha) &&
      rest.drop domain.length = []
  | _ => false

/-- `EmailRule.passes`: `regex_match(pattern, value or '')` — a falsy
value is replaced by the empty string (which never matches); a truthy
non-string raises `TypeError` inside `re.match`. -/
def emailPasses (value : JValue) : Except Cfg Bool :=
  match value with
  | .str s => .ok (emailMatch s)
  | v => if pyTruthy v then .error .typeError else .ok (emailMatch "")

/-- `ListRule.passes`: the value must be a list; with a declared item
type every element must be of it (an unknown item type raises
`ValueError` at `ValueType(params[0])`, and the item types without a
check — `list` — fall into `raise NotImplementedError`).  An empty or
absent parameter list, or an empty value, skips the element checks. -/
def listPasses (params : List Param) (value : JValue) : Except Cfg Bool :=
  match value with
  | .list xs =>
    match params.head? with
    | none => .ok true
    | some p =>
      if xs.isEmpty then .ok true
      else
        match valueTypeOfName (paramText p) with
        | none => .error .valueError
        | some .dict => .ok (xs.all isDictB)
        | some .string => .ok (xs.all isStrB)
        | some .integer => .ok (xs.all isInstInt)
        | some .numeric => .ok (xs.all isInstNumber)
        | some .list => .error .notimpl
  | _ => .ok false

/-- `DateRule.passes`: reserved relative keywords are rejected up
front; otherwise the value must parse as a date (any exception from the
date service yields a plain failure). -/
def datePasses (now : Int) (value : JValue) (_params : List Param) : Bool :=
  if isParseSpecialKey value then false
  else
    match value with
    | .str s => (sandglassParse now s).isSome
    | _ => false

/-- `AfterRule.passes`: keyword values rejected up front, then a strict
day-granularity comparison against the parsed `params[0]` (keywords are
legal there); any parse failure yields a plain failure. -/
def afterPasses (now : Int) (value : JValue) (params : List Param) : Bool :=
  if isParseSpecialKey value then false
  else
    match sandglassParseValue now value, params.head? with
    | some dv, some p =>
      match sandglassParse now (paramText p) with
      | some dp => decide (dv > dp)
      | none => false
    | _, _ => false

/-- `AfterOrEqualRule.passes`. -/
def afterOrEqualPasses (now : Int) (value : JValue) (params : List Param) : Bool :=
  if isParseSpecialKey value then false
  else
    match sandglassParseValue now value, params.head? with
    | some dv, some p =>
      match sandglassParse now (paramText p) with
      | some dp => decide (dv ≥ dp)
      | none => false
    | _, _ => false

/-- `BeforeRule.passes`. -/
def beforePasses (now : Int) (value : JValue) (params : List Param) : Bool :=
  if isParseSpecialKey value then false
  else
    match sandglassParseValue now value, params.head? with
    | some dv, some p =>
      match sandglassParse now (paramText p) with
      | some dp => decide (dv < dp)
      | none => false
    | _, _ => false

/-- `BeforeOrEqualRule.passes`. -/
def beforeOrEqualPasses (now : Int) (value : JValue) (params : List Param) : Bool :=
  if isParseSpecialKey value then false
  else
    match sandglassParseValue now value, params.head? with
    | some dv, some p =>
      match sandglassParse now (paramText p) with
      | some dp => decide (dv ≤ dp)
      | none => false
    | _, _ => false

/-- The predicate dispatch: `rule.passes(attribute, value, params)` for
every registered rule name.  An unregistered name cannot reach
evaluation (parsing rejects it); it is mapped to the parse-time
`InvalidRule` configuration error. -/
def rulePasses (now : Int) (vt : ValueType) (_required nullable : Bool)
    (name : String) (params : List Param) (value : JValue) : Except Cfg Bool :=
  if name = "required" then .ok (requiredPasses nullable value)
  else if name = "nullable" then .ok true
  else if name = "string" then .ok (isStrB value)
  else if name = "min" then minPasses vt params value
  else if name = "max" then maxPasses vt params value
  else if name = "integer" then .ok (isInstInt value)
  else if name = "numeric" then .ok (isInstNumber value)
  else if name = "boolean" then .ok (isBoolB value)
  else if name = "in" then .ok (inPasses value params)
  else if name = "not_in" then .ok (notInPasses value params)
  else if name = "same" then samePasses value params
  else if name = "email" then emailPasses value
  else if name = "list" then listPasses params value
  else if name = "dict" then .ok (isDictB value)
  else if name = "date" then .ok (datePasses now value params)
  else if name = "after" then .ok (afterPasses now value params)
  else if name = "after_or_equal" then .ok (afterOrEqualPasses now value params)
  else if name = "before" then .ok (beforePasses now value params)
  else if name = "before_or_equal" then .ok (beforeOrEqualPasses now value params)
  else .error (.invalidRule name)

/-- The `min`/`max` message-key dispatch on the declared value type
(`dict` raises `NotImplementedError` in the source). -/
def minMaxMessageKey (stem : String) (vt : ValueType) : Except Cfg String :=
  match vt with
  | .string => .ok ("en." ++ stem ++ ".string")
  | .list => .ok ("en." ++ stem ++ ".list")
  | .numeric => .ok ("en." ++ stem ++ ".numeric")
  | .integer => .ok ("en." ++ stem ++ ".numeric")
  | .dict => .error .notimpl

/-- The message dispatch: `rule.message(attribute, value, params)` for
every registered rule name (`params[0]` lookups raise `IndexError` when
missing, exactly where the source indexes). -/
def ruleMessage (vt : ValueType) (name : String) (params : List Param)
    (attr : String) : Except Cfg String :=
  if name = "required" then .ok (transMsg "en.required" [("attribute", attr)])
  else if name = "nullable" then .ok ""
  else if name = "string" then .ok (transMsg "en.string" [("attribute", attr)])
  else if name = "min" ∨ name = "max" then
    match minMaxMessageKey name vt with
    | .error e => .error e
    | .ok key =>
      match params.head? with
      | none => .error .indexError
      | some p => .ok (transMsg key [("attribute", attr), (name, paramText p)])
  else if name = "integer" then .ok (transMsg "en.integer" [("attribute", attr)])
  else if name = "numeric" then .ok (transMsg "en.numeric" [("attribute", attr)])
  else if name = "boolean" then .ok (transMsg "en.boolean" [("attribute", attr)])
  else if name = "in" then .ok (transMsg "en.in" [("attribute", attr)])
  else if name = "not_in" then .ok (transMsg "en.not_in" [("attribute", attr)])
  else if name = "same" then
    match params.head? with
    | none => .error .indexError
    | some p => .ok (transMsg "en.same" [("attribute", attr), ("other", paramText p)])
  else if name = "email" then .ok (transMsg "en.email" [("attribute", attr)])
  else if name = "list" then
    match params.head? with
    | none => .ok (transMsg "en.list" [("attribute", attr)])
    | some p => .ok (transMsg "en.list_item_type" [("attribute", attr), ("type", paramText p)])
  else if name = "dict" then .ok (transMsg "en.dict" [("attribute", attr)])
  else if name = "date" then
    match params with
    | [] => .ok (transMsg "en.date" [("attribute", attr)])
    | _ => .ok (transMsg "en.date_format"
        [("attribute", attr), ("format", String.intercalate "," (params.map paramText))])
  else if name = "after" ∨ name = "after_or_equal" ∨
          name = "before" ∨ name = "before_or_equal" then
    match params.head? with
    | none => .error .indexError
    | some p => .ok (transMsg ("en." ++ name) [("attribute", attr), ("date", paramText p)])
  else .error (.invalidRule name)

/-- The registered rule names: those whose CamelCase translation plus
`Rule` resolves to a rule class in the source's module globals. -/
def knownRuleNames : List String :=
  ["required", "nullable", "string", "min", "max", "integer", "numeric",
   "boolean", "in", "not_in", "same", "email", "list", "dict", "date",
   "after", "after_or_equal", "before", "before_or_equal"]

/-- `Ruleset._split_rule_params`: split on commas, empty parameter text
yields no parameters. -/
def splitRuleParams (ruleParams : String) : List String :=
  if ruleParams = "" then [] else splitOnCh ',' ruleParams

/-- Split one rule token at its first `:` into name and parameter text
(`_rule.split(':')` with the tail re-joined by `':'`). -/
def splitRuleToken (tok : String) : String × String :=
  match splitOnCh ':' tok with
  | [] => ("", "")
  | name :: rest => (name, String.intercalate ":" rest)

/-- `OrderedDict` assignment used by `Ruleset._parse`: an existing key
keeps its position and gets the new value, a new key is appended. -/
def odInsertRule : List RuleData → RuleData → List RuleData
  | [], rd => [rd]
  | r :: rest, rd => if r.name = rd.name then rd :: rest else r :: odInsertRule rest rd

/-- `Ruleset._parse` for the pipe-delimited string form: split on `|`,
split each token into name and comma-separated parameters, and reject
names outside the registry with `InvalidRule`.  (The programmatic
rule-object / `Ruleset`-subclass composition forms are outside every
claim and not modelled.) -/
def parseRules (toks : List String) : Except Cfg (List RuleData) :=
  match toks with
  | [] => .ok []
  | tok :: rest =>
    let (name, paramsText) := splitRuleToken tok
    if knownRuleNames.contains name then
      match parseRules rest with
      | .error e => .error e
      | .ok rds => .ok (odInsertRule rds ⟨name, (splitRuleParams paramsText).map Param.s⟩)
    else .error (.invalidRule name)

/-- `Ruleset.__init__` from a rule-expression string. -/
def parseRuleset (expr : String) : Except Cfg Ruleset :=
  match parseRules (splitOnCh '|' expr) with
  | .error e => .error e
  | .ok rds => .ok ⟨rds, []⟩

/-- The element-wise evaluation loop of `Ruleset.validate`: walk the
rules in declaration order, skip skippable rules, invoke the predicate
otherwise, and append the rendered message of every failing rule to the
accumulator.  A configuration error aborts the whole call. -/
def runRules (now : Int) (vt : ValueType) (required nullable : Bool)
    (attr : String) (value : JValue) (acc : List String) :
    List RuleData → Except Cfg (List String)
  | [] => .ok acc
  | rd :: rest =>
    if isSkippableB required nullable value then
      runRules now vt required nullable attr value acc rest
    else
      match rulePasses now vt required nullable rd.name rd.params value with
      | .error e => .error e
      | .ok true => runRules now vt required nullable attr value acc rest
      | .ok false =>
        match ruleMessage vt rd.name rd.params attr with
        | .error e => .error e
        | .ok m => runRules now vt required nullable attr value (acc ++ [m]) rest

/-- `True if self._errors else False`. -/
def hasErrorList (errors : List String) : Bool := !errors.isEmpty

/-- `Ruleset.validate(attribute, value, value_exists)`: run every rule,
then raise `ValidationError` exactly when the (never reset) accumulator
is non-empty.  The returned flag is the raised/normal outcome; the
returned ruleset carries the grown accumulator.  `value_exists` is
stored as transient metadata in the source but read by no rule. -/
def rulesetValidate (now : Int) (rs : Ruleset) (attr : String) (value : JValue)
    (_valueExists : Bool) : Except Cfg (Ruleset × Bool) :=
  match runRules now (rsValueType rs) (rsRequired rs) (rsNullable rs)
      attr value rs.errors rs.rules with
  | .error e => .error e
  | .ok errs => .ok (⟨rs.rules, errs⟩, hasErrorList errs)

/-- The parameters of a ruleset's rule of the given name
(`ruleset.get_rule(name).get_params()`); `[]` when absent. -/
def getRuleParams (rs : Ruleset) (name : String) : List Param :=
  match rs.rules.find? (fun rd => rd.name = name) with
  | some rd => rd.params
  | none => []

/-- The synthesized `Ruleset('required')` for implicit dict-child
rules. -/
def requiredRuleset : Ruleset := ⟨[⟨"required", []⟩], []⟩

/-- `Validator._get_extra_rules`: for a dict-typed ruleset, one
`required` ruleset per declared sub-key against `value.get(key)`
(`None` when the key misses or the value is not a map). -/
def getExtraRules (attr : String) (value : JValue) (rs : Ruleset) :
    List (String × Ruleset × JValue) :=
  if rsValueType rs = .dict then
    (getRuleParams rs "dict").map (fun p =>
      let key := paramText p
      let extraValue :=
        match value with
        | .dict kvs => (lookupField kvs key).getD .null
        | _ => .null
      (attr ++ "." ++ key, requiredRuleset, extraValue))
  else []

/-- `Validator._modify_dependent_rules`: when a `same` rule is present,
resolve its referenced field in the full input and append the
`(value, value_exists)` result as an extra parameter (mutating the
stored ruleset); `same` without a parameter hits `params[0]` with an
`IndexError`. -/
def modifyDependentRules (data : JValue) (rs : Ruleset) : Except Cfg Ruleset :=
  if rs.rules.any (fun rd => rd.name = "same") then
    match (getRuleParams rs "same").head? with
    | none => .error .indexError
    | some (.resolved _) => .error .typeError
    | some (.s other) =>
      .ok ⟨rs.rules.map (fun rd =>
        if rd.name = "same" then
          ⟨rd.name, rd.params ++ [Param.resolved (resolvePath (splitDots other) data)]⟩
        else rd), rs.errors⟩
  else .ok rs

/-- One field's error-map assignments and collected extra rules.  The
updated ruleset is the one left in `Validator._rules` (dependent-rule
parameters appended, errors accumulated in the single-value branch;
wildcard clones are deep copies and are discarded). -/
structure FieldOut where
  ruleset : Ruleset
  asg : List (String × List String)
  extras : List (String × Ruleset × JValue)

/-- The wildcard branch of `Validator.validate`: each element is
validated on a fresh clone of the ruleset; a raising clone assigns its
errors at the index-substituted attribute, a passing clone contributes
its extra rules.  A terminal resolver value that is not a
`(value, existed)` pair fails Python tuple unpacking. -/
def processItems (now : Int) (rs : Ruleset) (attr : String) :
    List (Nat × Resolved) →
    Except Cfg (List (String × List String) × List (String × Ruleset × JValue))
  | [] => .ok ([], [])
  | item :: rest =>
    let (itemAttr, itemDetails) := extractListDetails attr item
    match itemDetails with
    | .pair v ex =>
      match rulesetValidate now rs itemAttr v ex with
      | .error e => .error e
      | .ok (clone, raised) =>
        match processItems now rs attr rest with
        | .error e => .error e
        | .ok (asg, extras) =>
          if raised then .ok ((itemAttr, clone.errors) :: asg, extras)
          else .ok (asg, getExtraRules itemAttr v clone ++ extras)
    | .items _ => .error .unpackError

/-- The per-field body of `Validator.validate`: rewrite dependent
rules, resolve the attribute, then either the wildcard branch or a
single `Ruleset.validate` whose raising outcome assigns the ruleset's
errors at the attribute and whose normal outcome collects the extra
rules. -/
def processField (now : Int) (data : JValue) (attr : String) (rs0 : Ruleset) :
    Except Cfg FieldOut :=
  match modifyDependentRules data rs0 with
  | .error e => .error e
  | .ok rs =>
    match resolvePath (splitDots attr) data with
    | .items xs =>
      match processItems now rs attr xs with
      | .error e => .error e
      | .ok (asg, extras) => .ok ⟨rs, asg, extras⟩
    | .pair v ex =>
      match rulesetValidate now rs attr v ex with
      | .error e => .error e
      | .ok (rs2, raised) =>
        if raised then .ok ⟨rs2, [(attr, rs2.errors)], []⟩
        else .ok ⟨rs2, [], getExtraRules attr v rs2⟩

/-- The main loop of `Validator.validate` over the declared fields, in
order.  A `ValidationError` from one field is caught and recorded (the
per-field assignments), so later fields are still processed; any other
exception aborts the call. -/
def processAll (now : Int) (data : JValue) :
    List (String × Ruleset) → Except Cfg (List (String × FieldOut))
  | [] => .ok []
  | (attr, rs) :: rest =>
    match processField now data attr rs with
    | .error e => .error e
    | .ok fo =>
      match processAll now data rest with
      | .error e => .error e
      | .ok rest2 => .ok ((attr, fo) :: rest2)

/-- One extra rule's evaluation (`extra_rule.validate(extra_attribute,
extra_value)` with the default `value_exists=True`): a raising outcome
assigns the extra ruleset's errors at the extra attribute. -/
def processExtra (now : Int) (e : String × Ruleset × JValue) :
    Except Cfg (Option (String × List String)) :=
  match rulesetValidate now e.2.1 e.1 e.2.2 true with
  | .error c => .error c
  | .ok (rs2, raised) => .ok (if raised then some (e.1, rs2.errors) else none)

/-- The trailing extra-rules loop of `Validator.validate`. -/
def runExtras (now : Int) :
    List (String × Ruleset × JValue) → Except Cfg (List (String × List String))
  | [] => .ok []
  | e :: rest =>
    match processExtra now e with
    | .error c => .error c
    | .ok o =>
      match runExtras now rest with
      | .error c => .error c
      | .ok rest2 => .ok (o.toList ++ rest2)

/-- Python `dict` assignment `self._errors[attribute] = ...`: an
existing key keeps its position and gets the new value, a new key is
appended.  (Keys are unique by construction.) -/
def odAssign : List (String × List String) → String × List String →
    List (String × List String)
  | [], kv => [kv]
  | e :: rest, kv => if e.1 = kv.1 then kv :: rest else e :: odAssign rest kv

/-- The validator state: the input data, the parsed `RuleList` and the
error mapping, all of which persist across calls on one instance. -/
structure ValidatorS where
  data : JValue
  rules : List (String × Ruleset)
  errors : List (String × List String)

/-- `Validator.has_error` over the error mapping. -/
def hasErrorList2 (errors : List (String × List String)) : Bool := !errors.isEmpty

def joinAsg (fos : List (String × FieldOut)) : List (String × List String) :=
  (fos.map (fun p => p.2.asg)).flatten

def joinExtras (fos : List (String × FieldOut)) : List (String × Ruleset × JValue) :=
  (fos.map (fun p => p.2.extras)).flatten

/-- `Validator.validate()`: process every field, then the collected
extra rules, fold all error assignments into the instance's error
mapping, and raise `ValidationError` (the returned flag) exactly when
that mapping is non-empty.  The returned state carries the mutated
rulesets and errors. -/
def validatorValidate (now : Int) (v : ValidatorS) : Except Cfg (ValidatorS × Bool) :=
  match processAll now v.data v.rules with
  | .error e => .error e
  | .ok fos =>
    match runExtras now (joinExtras fos) with
    | .error e => .error e
    | .ok extraAsg =>
      let errors := (joinAsg fos ++ extraAsg).foldl odAssign v.errors
      .ok (⟨v.data, fos.map (fun p => (p.1, p.2.ruleset)), errors⟩,
           hasErrorList2 errors)

/-- `Validator.fails()`: run `validate()`, swallow the
`ValidationError`, report `has_error()`. -/
def validatorFails (now : Int) (v : ValidatorS) : Except Cfg (ValidatorS × Bool) :=
  match validatorValidate now v with
  | .error e => .error e
  | .ok (v2, _) => .ok (v2, hasErrorList2 v2.errors)

/-- `Validator.passes()`: run `validate()`, swallow the
`ValidationError`, report `not has_error()`. -/
def validatorPasses (now : Int) (v : ValidatorS) : Except Cfg (ValidatorS × Bool) :=
  match validatorValidate now v with
  | .error e => .error e
  | .ok (v2, _) => .ok (v2, !hasErrorList2 v2.errors)

/-- `RuleList._parse` for string rule expressions plus
`Validator.__init__`: parse each field's expression into a ruleset. -/
def parseRuleList : List (String × String) → Except Cfg (List (String × Ruleset))
  | [] => .ok []
  | (attr, expr) :: rest =>
    match parseRuleset expr with
    | .error e => .error e
    | .ok rs =>
      match parseRuleList rest with
      | .error e => .error e
      | .ok rest2 => .ok ((attr, rs) :: rest2)

def mkValidator (data : JValue) (rules : List (String × String)) :
    Except Cfg ValidatorS :=
  match parseRuleList rules with
  | .error e => .error e
  | .ok rl => .ok ⟨data, rl, []⟩

/-- Construct a fresh validator for the given data and rule expressions
and run one `validate()` call, projecting the final error mapping and
the raised/normal outcome (`none` on a configuration error). -/
def runOn (data : JValue) (rules : List (String × String)) :
    Option (List (String × List String) × Bool) :=
  match mkValidator data rules with
  | .error _ => none
  | .ok v =>
    match validatorValidate 0 v with
    | .error _ => none
    | .ok (st, raised) => some (st.errors, raised)

def c1Data : JValue :=
  .dict [("items", .list [.dict [("price", .int 1)], .dict [("price", .str "bad")]])]

def c1Errors : List (String × List String) :=
  [("items.1.price", [transMsg "en.numeric" [("attribute", "items.1.price")]])]

/-- C1: validating `{"items.*.price": "required|numeric"}` against
`{"items": [{"price": 1}, {"price": "bad"}]}` reports an error list
keyed exactly at the concrete path `items.1.price` and no key
`items.0.price`: each wildcard element is validated on a clone of the
ruleset and a failure is keyed by the path with the `*` segment
replaced by that element's index. -/
theorem c1_wildcard_error_paths :
    runOn c1Data [("items.*.price", "required|numeric")] = some (c1Errors, true) ∧
    c1Errors.lookup "items.1.price" =
      some [transMsg "en.numeric" [("attribute", "items.1.price")]] ∧
    c1Errors.lookup "items.0.price" = none :=
  ⟨by rfl, by rfl, by rfl⟩

def c4Message : String := transMsg "en.same" [("attribute", "b"), ("other", "a")]

/-- C4: with rules `{"b": "same:a"}`, the data `{"a": "x", "b": "x"}`
validates with no errors, while `{"a": "x", "b": "y"}` fails with the
error for field `b` rendered from the referenced field name `a`
(the orchestrator resolves `a` in the full input and appends the result
as an extra parameter of the `same` rule before evaluation). -/
theorem c4_same_rule_dependency :
    runOn (.dict [("a", .str "x"), ("b", .str "x")]) [("b", "same:a")] =
      some ([], false) ∧
    runOn (.dict [("a", .str "x"), ("b", .str "y")]) [("b", "same:a")] =
      some ([("b", [c4Message])], true) :=
  ⟨by rfl, by rfl⟩

def c5Errors : List (String × List String) :=
  [("person.age", [transMsg "en.required" [("attribute", "person.age")]])]

/-- C5: the rule `dict:name,age` on field `person` against
`{"person": {"name": "x"}}` reports a required-style error keyed at
`person.age`, no error at `person.name` and no error at `person`: after
the dict-typed field passes, a synthesized `required` ruleset runs per
declared sub-key after the main pass. -/
theorem c5_dict_child_required :
    runOn (.dict [("person", .dict [("name", .str "x")])])
      [("person", "dict:name,age")] = some (c5Errors, true) ∧
    c5Errors.lookup "person.age" =
      some [transMsg "en.required" [("attribute", "person.age")]] ∧
    c5Errors.lookup "person.name" = none ∧
    c5Errors.lookup "person" = none :=
  ⟨by rfl, by rfl, by rfl, by rfl⟩

def c9Msg : String := transMsg "en.string" [("attribute", "a")]

def c9FirstRun : Except Cfg (ValidatorS × Bool) :=
  match mkValidator (.dict [("a", .int 1)]) [("a", "string")] with
  | .error e => .error e
  | .ok v => validatorValidate 0 v

def c9SecondRun : Except Cfg (ValidatorS × Bool) :=
  match c9FirstRun with
  | .error e => .error e
  | .ok (st, _) => validatorValidate 0 st

def runErrors (x : Except Cfg (ValidatorS × Bool)) :
    Option (List (String × List String)) :=
  match x with
  | .ok (st, _) => some st.errors
  | .error _ => none

/-- C9 (code bug): for the data `{"a": 1}` with rules `{"a": "string"}`,
a second `validate()` call on the same instance appends the identical
message again to the ruleset's never-reset error accumulator, so
`errors()` after the second call holds the message twice — the error
mapping after the second call differs from the mapping after the first,
contradicting the spec's idempotence invariant. -/
theorem c9_second_validate_doubles_errors :
    runErrors c9FirstRun = some [("a", [c9Msg])] ∧
    runErrors c9SecondRun = some [("a", [c9Msg, c9Msg])] ∧
    ([("a", [c9Msg, c9Msg])] : List (String × List String)) ≠ [("a", [c9Msg])] :=
  ⟨by rfl, by rfl, by decide⟩

/-- C3 counterexample: with declared value type `numeric`, the value
`2.5` (a numeric scalar) and the rule `min:2`, the predicate fails even
though the numeric value `2.5 ≥ 2` — refuting the claim that for value
type numeric the predicate passes exactly when the numeric value is at
least `N` (the source additionally requires `isinstance(value, int)`). -/
theorem c3_min_float_counterexample :
    minPasses .numeric [.s "2"] (.float (5 / 2)) = .ok false ∧
    ((5 : Rat) / 2 ≥ 2) :=
  ⟨by rfl, by norm_num⟩

/-- C3 amended: for a parsed bound `N`, `min:N` passes for value type
`string` iff the value is a string of length ≥ `N`, for `list` iff it
is a list of ≥ `N` elements, for `numeric`/`integer` iff the value is a
Python `int` (booleans included) whose numeric value is ≥ `N` — a
non-`int` numeric such as a float always fails — and for any other
declared value type (`dict`) the rule is a configuration error. -/
theorem c3_min_per_value_type (p : String) (n : Rat) (rest : List Param)
    (value : JValue) (hp : parsePyFloat p = some n) :
    minPasses .string (.s p :: rest) value =
      .ok (match value with
           | .str s => decide ((s.length : Rat) ≥ n)
           | _ => false) ∧
    minPasses .list (.s p :: rest) value =
      .ok (match value with
           | .list xs => decide ((xs.length : Rat) ≥ n)
           | _ => false) ∧
    minPasses .numeric (.s p :: rest) value =
      .ok (isInstInt value && decide (valueAsRat value ≥ n)) ∧
    minPasses .integer (.s p :: rest) value =
      .ok (isInstInt value && decide (valueAsRat value ≥ n)) ∧
    minPasses .dict (.s p :: rest) value = .error .notimpl := by
  refine ⟨?_, ?_, ?_, ?_, ?_⟩ <;> simp [minPasses, hp]

/-- Witness for the amended C3 theorem at `min:2` on the string
`"abc"`. -/
theorem c3_min_per_value_type_witness :
    minPasses .string [.s "2"] (.str "abc") =
      .ok (match JValue.str "abc" with
           | .str s => decide ((s.length : Rat) ≥ 2)
           | _ => false) ∧
    minPasses .list [.s "2"] (.str "abc") =
      .ok (match JValue.str "abc" with
           | .list xs => decide ((xs.length : Rat) ≥ 2)
           | _ => false) ∧
    minPasses .numeric [.s "2"] (.str "abc") =
      .ok (isInstInt (.str "abc") && decide (valueAsRat (.str "abc") ≥ 2)) ∧
    minPasses .integer [.s "2"] (.str "abc") =
      .ok (isInstInt (.str "abc") && decide (valueAsRat (.str "abc") ≥ 2)) ∧
    minPasses .dict [.s "2"] (.str "abc") = .error .notimpl :=
  c3_min_per_value_type "2" 2 [] (.str "abc") (by rfl)

/-- C6: a field value equal to a reserved relative keyword fails the
`date`, `before` and `after` predicates up front regardless of the
declared formats, while the same keyword as the comparison parameter of
`before` is resolved through the date service and the day-granularity
comparison proceeds: for any non-keyword value that parses as a date
`d`, `before:tomorrow` evaluates to exactly `d < now + 1`. -/
theorem c6_reserved_keywords (now : Int) (params : List Param) (kw s : String)
    (d : Int) (hkw : isParseSpecialKeyStr kw = true)
    (hs : isParseSpecialKeyStr s = false) (hd : parseISODate s = some d) :
    datePasses now (.str kw) params = false ∧
    beforePasses now (.str kw) params = false ∧
    afterPasses now (.str kw) params = false ∧
    beforePasses now (.str s) [.s "tomorrow"] = decide (d < now + 1) := by
  have hs2 : sandglassParse now s = some d := by
    have h1 : s ≠ "today" := by
      intro h; rw [h] at hs; simp [isParseSpecialKeyStr, sandglassSpecialKeys] at hs
    have h2 : s ≠ "tomorrow" := by
      intro h; rw [h] at hs; simp [isParseSpecialKeyStr, sandglassSpecialKeys] at hs
    have h3 : s ≠ "yesterday" := by
      intro h; rw [h] at hs; simp [isParseSpecialKeyStr, sandglassSpecialKeys] at hs
    simp [sandglassParse, h1, h2, h3, hd]
  refine ⟨?_, ?_, ?_, ?_⟩
  · simp [datePasses, isParseSpecialKey, hkw]
  · simp [beforePasses, isParseSpecialKey, hkw]
  · simp [afterPasses, isParseSpecialKey, hkw]
  · have htom : sandglassParse now "tomorrow" = some (now + 1) := by
      simp [sandglassParse]
    simp [beforePasses, isParseSpecialKey, hs, sandglassParseValue, hs2,
      paramText, htom]

/-- Witness for C6 at the keyword `"tomorrow"`, the date `2022-12-23`
and `now = 0`. -/
theorem c6_reserved_keywords_witness :
    datePasses 0 (.str "tomorrow") [] = false ∧
    beforePasses 0 (.str "tomorrow") [] = false ∧
    afterPasses 0 (.str "tomorrow") [] = false ∧
    beforePasses 0 (.str "2022-12-23") [.s "tomorrow"] =
      decide ((752547 : Int) < 0 + 1) :=
  c6_reserved_keywords 0 [] "tomorrow" "2022-12-23" 752547 (by rfl) (by rfl) (by rfl)

/-- C8: `fails()` and `passes()` on the same freshly constructed
validator return complementary booleans (and the identical mutated
state): whenever `fails()` returns `b`, `passes()` returns `!b`. -/
theorem c8_fails_passes_complement (now : Int) (v v2 : ValidatorS) (b : Bool)
    (h : validatorFails now v = .ok (v2, b)) :
    validatorPasses now v = .ok (v2, !b) := by
  unfold validatorFails at h
  unfold validatorPasses
  cases hv : validatorValidate now v with
  | error e => rw [hv] at h; simp at h
  | ok p =>
    obtain ⟨st, raised⟩ := p
    rw [hv] at h
    simp only [Except.ok.injEq, Prod.mk.injEq] at h
    obtain ⟨h1, h2⟩ := h
    subst h1
    rw [← h2]

def c8Data : JValue := .dict [("a", .int 1)]

def c8Validator : ValidatorS :=
  ⟨c8Data, [("a", ⟨[⟨"string", []⟩], []⟩)], []⟩

def c8After : ValidatorS :=
  ⟨c8Data, [("a", ⟨[⟨"string", []⟩], [c9Msg]⟩)], [("a", [c9Msg])]⟩

/-- Witness for C8: on `{"a": 1}` with rules `{"a": "string"}`,
`fails()` returns `true` and `passes()` returns `false`. -/
theorem c8_fails_passes_complement_witness :
    validatorPasses 0 c8Validator = .ok (c8After, !true) :=
  c8_fails_passes_complement 0 c8Validator c8After true (by rfl)

/-- C10: the parameters of `in`/`not_in` stay the unparsed strings of
the rule expression, and a non-string value never equals a string under
Python equality, so for every non-string value the `in` predicate fails
and the `not_in` predicate passes. -/
theorem c10_in_not_in_literal_strings (value : JValue) (params : List Param)
    (hstr : ∀ p ∈ params, ∃ s, p = Param.s s) (hv : isStrB value = false) :
    inPasses value params = false ∧ notInPasses value params = true := by
  have hne : ∀ p ∈ params, paramEqValue value p = false := by
    intro p hp
    obtain ⟨s, rfl⟩ := hstr p hp
    cases value <;> simp_all [paramEqValue, pyEq, isStrB]
  have hin : inPasses value params = false := by
    unfold inPasses
    rw [List.any_eq_false]
    intro p hp
    simp [hne p hp]
  refine ⟨hin, ?_⟩
  unfold notInPasses
  unfold inPasses at hin
  rw [hin]
  rfl

/-- Witness for C10: the integer `1` against `in:1,2` — parsed by the
engine as the literal parameter strings `"1"` and `"2"` — fails `in`
and satisfies `not_in`. -/
theorem c10_in_not_in_literal_strings_witness :
    parseRuleset "in:1,2" = .ok ⟨[⟨"in", [.s "1", .s "2"]⟩], []⟩ ∧
    inPasses (.int 1) [.s "1", .s "2"] = false ∧
    notInPasses (.int 1) [.s "1", .s "2"] = true :=
by
  have hstr : ∀ p ∈ ([.s "1", .s "2"] : List Param), ∃ s, p = Param.s s := by
    intro p hp
    simp only [List.mem_cons, List.not_mem_nil, or_false] at hp
    rcases hp with rfl | rfl
    · exact ⟨"1", rfl⟩
    · exact ⟨"2", rfl⟩
  have h := c10_in_not_in_literal_strings (.int 1) [.s "1", .s "2"] hstr (by rfl)
  exact ⟨by rfl, h.1, h.2⟩

/-- The outcome of invoking every rule of the list: the rendered
message of each failing predicate in declaration order (the not-skipped
path of `Ruleset.validate`). -/
def ruleFailMsgs (now : Int) (vt : ValueType) (required nullable : Bool)
    (attr : String) (value : JValue) : List RuleData → Except Cfg (List String)
  | [] => .ok []
  | rd :: rest =>
    match rulePasses now vt required nullable rd.name rd.params value with
    | .error e => .error e
    | .ok true => ruleFailMsgs now vt required nullable attr value rest
    | .ok false =>
      match ruleMessage vt rd.name rd.params attr with
      | .error e => .error e
      | .ok m =>
        match ruleFailMsgs now vt required nullable attr value rest with
        | .error e => .error e
        | .ok ms => .ok (m :: ms)

theorem isSkippableB_iff (required nullable : Bool) (value : JValue) :
    isSkippableB required nullable value = true ↔
      (value = JValue.null ∧ (nullable = true ∨ required = false)) := by
  cases value <;> cases required <;> cases nullable <;>
    simp [isSkippableB, isNullB]

theorem runRules_skip (now : Int) (vt : ValueType) (required nullable : Bool)
    (attr : String) (value : JValue) (acc : List String) (rds : List RuleData)
    (h : isSkippableB required nullable value = true) :
    runRules now vt required nullable attr value acc rds = .ok acc := by
  induction rds with
  | nil => rfl
  | cons rd rest ih => simp [runRules, h, ih]

theorem runRules_no_skip (now : Int) (vt : ValueType) (required nullable : Bool)
    (attr : String) (value : JValue) (rds : List RuleData)
    (h : isSkippableB required nullable value = false) :
    ∀ acc, runRules now vt required nullable attr value acc rds =
      match ruleFailMsgs now vt required nullable attr value rds with
      | .error e => .error e
      | .ok ms => .ok (acc ++ ms) := by
  induction rds with
  | nil => intro acc; simp [runRules, ruleFailMsgs]
  | cons rd rest ih =>
    intro acc
    rw [runRules, ruleFailMsgs, h]
    simp only [Bool.false_eq_true, if_false]
    cases rulePasses now vt required nullable rd.name rd.params value with
    | error e => rfl
    | ok b =>
      cases b with
      | true => dsimp only; rw [ih]
      | false =>
        cases ruleMessage vt rd.name rd.params attr with
        | error e => rfl
        | ok m =>
          dsimp only
          rw [ih (acc ++ [m])]
          cases ruleFailMsgs now vt required nullable attr value rest with
          | error e => rfl
          | ok ms => simp

/-- C2: in `Ruleset.validate`, a rule is skipped — its predicate is not
invoked (so it can raise no configuration error) and it contributes no
message — exactly when the value is `None` and the ruleset declares
`nullable` or does not declare `required`; otherwise every rule's
predicate is invoked and each failing rule appends exactly its rendered
message, in declaration order. -/
theorem c2_skippable_iff (now : Int) (rs : Ruleset) (attr : String)
    (value : JValue) (ex : Bool) :
    ((value = JValue.null ∧ (rsNullable rs = true ∨ rsRequired rs = false)) →
      rulesetValidate now rs attr value ex = .ok (rs, hasErrorList rs.errors)) ∧
    (¬ (value = JValue.null ∧ (rsNullable rs = true ∨ rsRequired rs = false)) →
      rulesetValidate now rs attr value ex =
        match ruleFailMsgs now (rsValueType rs) (rsRequired rs) (rsNullable rs)
            attr value rs.rules with
        | .error e => .error e
        | .ok ms => .ok (⟨rs.rules, rs.errors ++ ms⟩,
            hasErrorList (rs.errors ++ ms))) := by
  constructor
  · intro hA
    have hskip : isSkippableB (rsRequired rs) (rsNullable rs) value = true :=
      (isSkippableB_iff _ _ _).mpr hA
    unfold rulesetValidate
    rw [runRules_skip now _ _ _ _ _ _ _ hskip]
  · intro hA
    have hskip : isSkippableB (rsRequired rs) (rsNullable rs) value = false := by
      cases hcase : isSkippableB (rsRequired rs) (rsNullable rs) value with
      | true => exact absurd ((isSkippableB_iff _ _ _).mp hcase) hA
      | false => rfl
    unfold rulesetValidate
    rw [runRules_no_skip now _ _ _ _ _ _ hskip]
    cases ruleFailMsgs now (rsValueType rs) (rsRequired rs) (rsNullable rs)
        attr value rs.rules with
    | error e => rfl
    | ok ms => rfl

def c2NullableRuleset : Ruleset := ⟨[⟨"nullable", []⟩, ⟨"integer", []⟩], []⟩

/-- Witness for C2 on the ruleset `nullable|integer`: the value `None`
is skipped entirely, while the value `"x"` is evaluated by every
rule. -/
theorem c2_skippable_iff_witness :
    rulesetValidate 0 c2NullableRuleset "f" .null true =
      .ok (c2NullableRuleset, hasErrorList c2NullableRuleset.errors) ∧
    rulesetValidate 0 c2NullableRuleset "f" (.str "x") true =
      match ruleFailMsgs 0 (rsValueType c2NullableRuleset)
          (rsRequired c2NullableRuleset) (rsNullable c2NullableRuleset)
          "f" (.str "x") c2NullableRuleset.rules with
      | .error e => .error e
      | .ok ms => .ok (⟨c2NullableRuleset.rules, c2NullableRuleset.errors ++ ms⟩,
          hasErrorList (c2NullableRuleset.errors ++ ms)) :=
  ⟨(c2_skippable_iff 0 c2NullableRuleset "f" .null true).1 ⟨rfl, Or.inl (by rfl)⟩,
   (c2_skippable_iff 0 c2NullableRuleset "f" (.str "x") true).2
     (by rintro ⟨h, -⟩; cases h)⟩

/-- The attribute at which one collected extra rule would report, if it
fails (empty when it passes or cannot be evaluated). -/
def extraKeys (now : Int) (e : String × Ruleset × JValue) : List String :=
  match processExtra now e with
  | .ok (some (k, _)) => [k]
  | _ => []

/-- Every concrete attribute path at which processing the given field
reports an error: its direct assignments plus its failing extra
(dict-child) rules. -/
def fieldErrorKeys (now : Int) (data : JValue) (attr : String) (rs : Ruleset) :
    List String :=
  match processField now data attr rs with
  | .error _ => []
  | .ok fo => fo.asg.map (fun a => a.1) ++ (fo.extras.map (extraKeys now)).flatten

theorem lookup_odAssign (k : String) (d : List (String × List String))
    (kv : String × List String) :
    (List.lookup k (odAssign d kv)).isSome =
      ((List.lookup k d).isSome || (k == kv.1)) := by
  induction d with
  | nil =>
    simp only [odAssign, List.lookup]
    cases h : k == kv.1 <;> simp [h]
  | cons e rest ih =>
    simp only [odAssign]
    by_cases he : e.1 = kv.1
    · rw [if_pos he]
      have hkk : (k == kv.1) = (k == e.1) := by rw [he]
      cases h2 : (k == e.1) <;> simp [List.lookup, hkk, h2]
    · rw [if_neg he]
      simp only [List.lookup]
      cases h2 : k == e.1
      · simp only [cond_false, ih]
      · simp

theorem lookup_foldl_odAssign (k : String) (asgs : List (String × List String))
    (init : List (String × List String)) :
    (List.lookup k (asgs.foldl odAssign init)).isSome =
      ((List.lookup k init).isSome || asgs.any (fun a => k == a.1)) := by
  induction asgs generalizing init with
  | nil => simp
  | cons a rest ih =>
    simp only [List.foldl_cons, List.any_cons]
    rw [ih, lookup_odAssign]
    cases (List.lookup k init).isSome <;> cases k == a.1 <;> simp

theorem runExtras_keys (now : Int) (es : List (String × Ruleset × JValue))
    (out : List (String × List String)) (h : runExtras now es = .ok out) :
    out.map (fun a => a.1) = (es.map (extraKeys now)).flatten := by
  induction es generalizing out with
  | nil =>
    simp only [runExtras] at h
    cases h
    simp
  | cons e rest ih =>
    simp only [runExtras] at h
    cases hpe : processExtra now e with
    | error c => rw [hpe] at h; cases h
    | ok o =>
      rw [hpe] at h
      cases hre : runExtras now rest with
      | error c => rw [hre] at h; cases h
      | ok rest2 =>
        rw [hre] at h
        cases h
        have hx : extraKeys now e = o.toList.map (fun a => a.1) := by
          unfold extraKeys
          rw [hpe]
          cases o with
          | none => rfl
          | some kv => cases kv; rfl
        simp [ih rest2 hre, hx]

theorem processAll_keys (now : Int) (data : JValue)
    (rules : List (String × Ruleset)) (fos : List (String × FieldOut))
    (h : processAll now data rules = .ok fos) (k : String) :
    (k ∈ (joinAsg fos).map (fun a => a.1) ∨
       k ∈ ((joinExtras fos).map (extraKeys now)).flatten) ↔
      ∃ p ∈ rules, k ∈ fieldErrorKeys now data p.1 p.2 := by
  induction rules generalizing fos with
  | nil =>
    simp only [processAll] at h
    cases h
    simp [joinAsg, joinExtras]
  | cons ar rest ih =>
    obtain ⟨attr, rs⟩ := ar
    simp only [processAll] at h
    cases hf : processField now data attr rs with
    | error e => rw [hf] at h; cases h
    | ok fo =>
      rw [hf] at h
      cases hr : processAll now data rest with
      | error e => rw [hr] at h; cases h
      | ok rest2 =>
        rw [hr] at h
        cases h
        have hfk : fieldErrorKeys now data attr rs =
            fo.asg.map (fun a => a.1) ++ (fo.extras.map (extraKeys now)).flatten := by
          unfold fieldErrorKeys
          rw [hf]
        have ih2 := ih rest2 hr
        simp only [joinAsg, joinExtras] at ih2 ⊢
        simp only [List.map_cons, List.flatten_cons, List.map_append,
          List.flatten_append, List.mem_append, List.mem_cons]
        constructor
        · rintro ((hk | hk) | (hk | hk))
          · exact ⟨(attr, rs), Or.inl rfl,
              by rw [hfk]; exact List.mem_append.mpr (Or.inl hk)⟩
          · obtain ⟨p, hp, hkp⟩ := ih2.mp (Or.inl hk)
            exact ⟨p, Or.inr hp, hkp⟩
          · exact ⟨(attr, rs), Or.inl rfl,
              by rw [hfk]; exact List.mem_append.mpr (Or.inr hk)⟩
          · obtain ⟨p, hp, hkp⟩ := ih2.mp (Or.inr hk)
            exact ⟨p, Or.inr hp, hkp⟩
        · rintro ⟨p, hp | hp, hkp⟩
          · subst hp
            rw [hfk] at hkp
            rcases List.mem_append.mp hkp with hk | hk
            · exact Or.inl (Or.inl hk)
            · exact Or.inr (Or.inl hk)
          · rcases ih2.mpr ⟨p, hp, hkp⟩ with hk | hk
            · exact Or.inl (Or.inr hk)
            · exact Or.inr (Or.inr hk)

/-- C7: a `validate()` call on a fresh validator processes every
declared field — a concrete path is a key of the final error mapping
exactly when some declared field (or one of its collected extra rules)
reports an error there, regardless of the other fields — and it raises
`ValidationError` (`r = true`) exactly when the final error mapping is
non-empty; with no accumulated error it returns normally with an empty
mapping. -/
theorem c7_processes_all_fields (now : Int) (data : JValue)
    (rules : List (String × Ruleset)) (st : ValidatorS) (r : Bool)
    (h : validatorValidate now ⟨data, rules, []⟩ = .ok (st, r)) :
    (r = true ↔ st.errors ≠ []) ∧
    (∀ k, ((st.errors.lookup k).isSome = true ↔
       ∃ p ∈ rules, k ∈ fieldErrorKeys now data p.1 p.2)) := by
  unfold validatorValidate at h
  cases hA : processAll now data rules with
  | error e => rw [hA] at h; cases h
  | ok fos =>
    rw [hA] at h
    dsimp only at h
    cases hE : runExtras now (joinExtras fos) with
    | error e => rw [hE] at h; cases h
    | ok exAsg =>
      rw [hE] at h
      dsimp only at h
      simp only [Except.ok.injEq, Prod.mk.injEq] at h
      obtain ⟨hst, hr⟩ := h
      constructor
      · subst hst hr
        simp only [hasErrorList2]
        cases (joinAsg fos ++ exAsg).foldl odAssign [] <;> simp
      · intro k
        have hlk :
            ((st.errors.lookup k).isSome : Bool) =
              ((joinAsg fos ++ exAsg).any (fun a => k == a.1)) := by
          rw [← hst]
          simp only [lookup_foldl_odAssign, List.lookup, Option.isSome_none,
            Bool.false_or]
        rw [hlk]
        rw [← processAll_keys now data rules fos hA k]
        have hek : exAsg.map (fun a => a.1) =
            ((joinExtras fos).map (extraKeys now)).flatten :=
          runExtras_keys now (joinExtras fos) exAsg hE
        rw [← hek]
        simp only [List.any_append, List.any_eq_true, Bool.or_eq_true,
          beq_iff_eq, List.mem_map]
        constructor
        · rintro (⟨a, ha, rfl⟩ | ⟨a, ha, rfl⟩)
          · exact Or.inl ⟨a, ha, rfl⟩
          · exact Or.inr ⟨a, ha, rfl⟩
        · rintro (⟨a, ha, rfl⟩ | ⟨a, ha, rfl⟩)
          · exact Or.inl ⟨a, ha, rfl⟩
          · exact Or.inr ⟨a, ha, rfl⟩

def c7wData : JValue := .dict [("a", .str "x")]

def c7wRules : List (String × Ruleset) := [("a", ⟨[⟨"string", []⟩], []⟩)]

def c7wState : ValidatorS := ⟨c7wData, c7wRules, []⟩

/-- Witness for C7: `{"a": "x"}` against `{"a": "string"}` validates
with no errors and does not raise. -/
theorem c7_processes_all_fields_witness :
    (false = true ↔ c7wState.errors ≠ []) ∧
    (∀ k, ((c7wState.errors.lookup k).isSome = true ↔
       ∃ p ∈ c7wRules, k ∈ fieldErrorKeys 0 c7wData p.1 p.2)) :=
  c7_processes_all_fields 0 c7wData c7wRules c7wState false (by rfl)
